import Mathlib

/-!
Shallow embedding of `app.py` from the repository
`igorcomo/evolucao-leis-streamlit2.0`, covering its data-acquisition layer:
the HTTP wrapper `safe_get`, the bill collector `buscar_pls_periodo`, the
author and party resolvers `autores_por_proposicao` / `partido_do_deputado`,
and the aggregator `contagem_por_partido`.

HTTP traffic is modelled by oracles: a function giving, for each attempt (or
each queried identifier / page), the outcome the remote service produces.
Python exceptions are modelled explicitly with an `Except` result so that
propagation to the caller is observable; Python falsiness of `None`, `0`
and `""` is modelled where the source relies on it (`or` chains, `if idep:`).
-/

namespace App

/-- Whitespace as Python `int(...)` strips it. -/
def pySpace (c : Char) : Bool :=
  c == ' ' || c == '\t' || c == '\n' || c == '\r' || c == '\x0b' || c == '\x0c'

/-- Strip whitespace from both ends of a character list. -/
def pyStrip (cs : List Char) : List Char :=
  ((cs.dropWhile pySpace).reverse.dropWhile pySpace).reverse

/-- Numeric value of a decimal digit character. -/
def digitVal (c : Char) : Nat := c.toNat - 48

/-- Value of a digit string, most significant first. -/
def digitsVal (cs : List Char) : Nat :=
  cs.foldl (fun n c => 10 * n + digitVal c) 0

/-- Python `int(s)` on a string: optional surrounding whitespace, optional
sign, then decimal digits. Returns `none` when Python would raise
`ValueError`. -/
def pyIntOfString (s : String) : Option Int :=
  let t := pyStrip s.data
  let signed : Bool × List Char :=
    match t with
    | '-' :: rest => (true, rest)
    | '+' :: rest => (false, rest)
    | _ => (false, t)
  if signed.2 ≠ [] ∧ signed.2.all Char.isDigit then
    if signed.1 then some (-(digitsVal signed.2 : Int)) else some (digitsVal signed.2)
  else none

/-- ASCII lowercasing, modelling Python `str.lower()` (the classification
strings in play are matched against the ASCII literal "parlamentar"). -/
def charLower (c : Char) : Char :=
  if 65 ≤ c.toNat ∧ c.toNat ≤ 90 then Char.ofNat (c.toNat + 32) else c

/-- ASCII uppercasing, modelling Python `str.upper()` (party codes are
ASCII sigla). -/
def charUpper (c : Char) : Char :=
  if 97 ≤ c.toNat ∧ c.toNat ≤ 122 then Char.ofNat (c.toNat - 32) else c

/-- Python `s.lower()`. -/
def pyLower (s : String) : String := ⟨s.data.map charLower⟩

/-- Python `s.upper()`. -/
def pyUpper (s : String) : String := ⟨s.data.map charUpper⟩

/-- Python `s.startswith(pre)`. -/
def pyStartsWith (s pre : String) : Bool :=
  List.isPrefixOf pre.data s.data

/-- Python truthiness of an optional integer: `None` and `0` are falsy. -/
def truthyOptInt : Option Int → Bool
  | none => false
  | some n => n != 0

/-- Python `x or y` on optional integers: yields `x` when truthy, else `y`. -/
def orFalsyInt (x y : Option Int) : Option Int :=
  if truthyOptInt x then x else y

/-! ## HTTP wrapper `safe_get` -/

/-- Python exceptions that can arise inside the `try` block of `safe_get`. -/
inductive PyExc where
  /-- raised by `resp.raise_for_status()` on a 4xx/5xx status -/
  | httpError (status : Nat)
  /-- raised by `int(...)` on a bad literal or by `time.sleep` on a negative value -/
  | valueError
  /-- raised by `resp.json()` on an unparseable body -/
  | jsonError
  /-- raised by `SESSION.get` itself (connection, timeout, retries
  exhausted); in `requests` these are never `HTTPError` -/
  | requestExc (msg : String)
  /-- raised when an exception handler reads an unassigned variable -/
  | nameError
  deriving DecidableEq, Repr

/-- An HTTP response as `safe_get` observes it: status code, the
`Retry-After` header if present, and the JSON body (`none` models a body
`resp.json()` fails on). -/
structure HttpResp (α : Type) where
  status : Nat
  retryAfter : Option String
  body : Option α
  deriving DecidableEq, Repr

/-- Outcome of one `SESSION.get` call: either the call raises a
(non-`HTTPError`) requests exception, or it returns a response. -/
inductive GetOutcome (α : Type) where
  | raised (msg : String)
  | resp (r : HttpResp α)
  deriving DecidableEq, Repr

/-- The warnings `safe_get` can surface via `st.warning`. -/
inductive Warning where
  /-- "Servidor retornou {status} para {url}…" -/
  | httpStatus (status : Nat) (url : String)
  /-- "Falha ao acessar {url}: {e}" -/
  | generic (url : String) (e : PyExc)
  deriving DecidableEq, Repr

/-- Observable trace of one `safe_get` call: the value handed to the caller
(`Except.error` means an exception propagated out of `safe_get`), the
warnings emitted, the sleep durations performed, and how many `SESSION.get`
calls were issued. -/
structure SafeGetRun (α : Type) where
  result : Except PyExc (Option α)
  warnings : List Warning
  sleeps : List Int
  getsIssued : Nat
  deriving Repr

/-- `resp.raise_for_status()` followed by `return resp.json()`. -/
def finishResp {α : Type} (r : HttpResp α) : Except PyExc α :=
  if 400 ≤ r.status ∧ r.status < 600 then .error (.httpError r.status)
  else match r.body with
    | none => .error .jsonError
    | some j => .ok j

/-- The `try` block of `safe_get`: first GET, the 429 branch with
`Retry-After` parsing, sleeping and the single manual retry, then
`raise_for_status` / `json()`. Returns the block's outcome, the value of
the local variable `resp` at the moment the block ends (needed by the
`HTTPError` handler), the sleeps and the number of GETs issued. The oracle
`world n` gives the outcome of the n-th `SESSION.get` of this call. -/
def tryBody {α : Type} (world : Nat → GetOutcome α) :
    Except PyExc α × Option (HttpResp α) × List Int × Nat :=
  match world 0 with
  | .raised m => (.error (.requestExc m), none, [], 1)
  | .resp r0 =>
    if r0.status = 429 then
      match pyIntOfString (r0.retryAfter.getD "2") with
      | none => (.error .valueError, some r0, [], 1)
      | some w =>
        if w < 0 then (.error .valueError, some r0, [], 1)
        else
          match world 1 with
          | .raised m => (.error (.requestExc m), some r0, [w], 2)
          | .resp r1 => (finishResp r1, some r1, [w], 2)
    else (finishResp r0, some r0, [], 1)

/-- `safe_get(url, params, timeout)` from `app.py`: the `try` block above,
then the `except requests.exceptions.HTTPError` handler (which reads the
variable `resp` — a `NameError` propagates if it was never assigned) and
the catch-all `except Exception` handler. -/
def safe_get {α : Type} (world : Nat → GetOutcome α) (url : String) :
    SafeGetRun α :=
  match tryBody world with
  | (.ok j, _, sleeps, gets) =>
      { result := .ok (some j), warnings := [], sleeps := sleeps, getsIssued := gets }
  | (.error e, respVar, sleeps, gets) =>
    match e with
    | .httpError _ =>
      match respVar with
      | none =>
          { result := .error .nameError, warnings := [], sleeps := sleeps, getsIssued := gets }
      | some r =>
          { result := .ok none, warnings := [.httpStatus r.status url],
            sleeps := sleeps, getsIssued := gets }
    | e =>
        { result := .ok none, warnings := [.generic url e],
          sleeps := sleeps, getsIssued := gets }

/-! ## Bill collector `buscar_pls_periodo` -/

/-- One record from the `dados` array of the proposals listing: its `id`
and its `dataApresentacao` value (`none` when the key is absent). Other
payload fields play no role in the embedded layer. -/
structure Rec where
  id : Option Int
  dataApresentacao : Option String
  deriving DecidableEq, Repr

/-- One page of the listing endpoint as parsed JSON: the `dados` records
and the `links` items as (rel, href) pairs. -/
structure Page where
  dados : List Rec
  links : List (String × String)
  deriving DecidableEq, Repr

/-- `"next" in {l["rel"]: l["href"] for l in js.get("links", [])}`. -/
def hasNext (pg : Page) : Bool :=
  pg.links.any (fun l => l.1 == "next")

/-- The `while True` paging loop of `buscar_pls_periodo` for one year,
with explicit fuel (the source loop has no bound of its own; every theorem
below supplies enough fuel for the run it describes). `oracle p` is what
`safe_get` on page `p` hands back, with `none` for a failed fetch.
Returns the pages requested, in order, and the records accumulated. -/
def collectYear (oracle : Nat → Option Page) : Nat → Nat → List Nat × List Rec
  | 0, _ => ([], [])
  | fuel + 1, pagina =>
    match oracle pagina with
    | none => ([pagina], [])
    | some pg =>
      if hasNext pg ∧ pg.dados ≠ [] then
        let rest := collectYear oracle fuel (pagina + 1)
        (pagina :: rest.1, pg.dados ++ rest.2)
      else ([pagina], pg.dados)

/-- `range(ano_ini, ano_fim + 1)` as a list of years. -/
def yearsRange (ano_ini ano_fim : Int) : List Int :=
  (List.range (ano_fim + 1 - ano_ini).toNat).map (fun k => ano_ini + k)

/-- The collection phase of `buscar_pls_periodo(ano_ini, ano_fim)`:
for each year of the inclusive range, run the paging loop from page 1.
`oracle ano p` is the fetch outcome for page `p` of year `ano`. Returns
the full request trace as (year, page) pairs and the flat record list
`todos`. -/
def buscar_pls_periodo (oracle : Int → Nat → Option Page) (fuel : Nat)
    (ano_ini ano_fim : Int) : List (Int × Nat) × List Rec :=
  (yearsRange ano_ini ano_fim).foldl
    (fun acc ano =>
      let run := collectYear (oracle ano) fuel 1
      (acc.1 ++ run.1.map (fun p => (ano, p)), acc.2 ++ run.2))
    ([], [])

/-! ## Date normalisation (`pd.to_datetime` + derived columns) -/

/-- A pandas cell as it appears in the derived columns: `NaN`/missing,
a string, or an integer. -/
inductive Cell where
  | null
  | str (s : String)
  | int (n : Int)
  deriving DecidableEq, Repr

/-- `pd.to_datetime(s, errors="coerce", utc=True)` on one string cell,
reduced to the (year, month) pair the derived columns need: accepts an
ISO `YYYY-MM-DD` date, optionally followed by a `T`- or space-separated
time, and yields `none` (NaT) on anything else. -/
def parseIsoDate (s : String) : Option (Int × Nat) :=
  match s.toList with
  | y1 :: y2 :: y3 :: y4 :: '-' :: m1 :: m2 :: '-' :: d1 :: d2 :: rest =>
    if ([y1, y2, y3, y4, m1, m2, d1, d2].all Char.isDigit)
        ∧ (rest = [] ∨ rest.head? = some 'T' ∨ rest.head? = some ' ') then
      let y : Int :=
        (1000 * digitVal y1 + 100 * digitVal y2 + 10 * digitVal y3 + digitVal y4 : Nat)
      let m := 10 * digitVal m1 + digitVal m2
      let d := 10 * digitVal d1 + digitVal d2
      if 1 ≤ m ∧ m ≤ 12 ∧ 1 ≤ d ∧ d ≤ 31 then some (y, m) else none
    else none
  | _ => none

/-- `pd.to_datetime` on a whole cell: a missing value (NaN) coerces to
NaT. -/
def pdToDatetime (raw : Option String) : Option (Int × Nat) :=
  match raw with
  | none => none
  | some s => parseIsoDate s

/-- Month number zero-padded to two digits. -/
def pad2 (m : Nat) : String :=
  if m < 10 then "0" ++ toString m else toString m

/-- Period formatting "YYYY-MM" used by `to_period("M")`. -/
def fmtYM (y : Int) (m : Nat) : String :=
  toString y ++ "-" ++ pad2 m

/-- One cell of the derived `ano_mes` column:
`df["dataApresentacao"].dt.to_period("M").astype(str)`. `astype(str)`
turns a NaT entry into the literal string "NaT", not a null. -/
def deriveAnoMes (raw : Option String) : Cell :=
  match pdToDatetime raw with
  | none => .str "NaT"
  | some ym => .str (fmtYM ym.1 ym.2)

/-- One cell of the derived `ano` column:
`df["dataApresentacao"].dt.year`; NaT entries become NaN. -/
def deriveAno (raw : Option String) : Cell :=
  match pdToDatetime raw with
  | none => .null
  | some ym => .int ym.1

/-- The derived `ano_mes` column of the returned DataFrame: present only
when some collected record carries a `dataApresentacao` key (otherwise the
`if "dataApresentacao" in df.columns` guard skips the derivation). -/
def anoMesColumn (recs : List Rec) : Option (List Cell) :=
  if recs.any (fun r => r.dataApresentacao.isSome) then
    some (recs.map (fun r => deriveAnoMes r.dataApresentacao))
  else none

/-- The derived `ano` column, under the same column-existence guard. -/
def anoColumn (recs : List Rec) : Option (List Cell) :=
  if recs.any (fun r => r.dataApresentacao.isSome) then
    some (recs.map (fun r => deriveAno r.dataApresentacao))
  else none

/-! ## Author resolver `autores_por_proposicao` -/

/-- The nested `autor` object of an author reference, with its optional
`id`. -/
structure AutorObj where
  id : Option Int
  deriving DecidableEq, Repr

/-- One author reference from `/proposicoes/{id}/autores`: the
`tipoAutor` classification, the optional top-level `idDeputado`, and the
optional nested `autor` object. `none` models an absent or null field. -/
structure Autor where
  tipoAutor : Option String
  idDeputado : Option Int
  autor : Option AutorObj
  deriving DecidableEq, Repr

/-- `autores_por_proposicao(id)`: one `safe_get`, `[]` on failure, else
the `dados` list. The oracle gives the parsed author payload per bill id
(`none` = fetch failed). -/
def autores_por_proposicao (oracle : Int → Option (List Autor))
    (id_proposicao : Int) : List Autor :=
  match oracle id_proposicao with
  | none => []
  | some dados => dados

/-! ## Party resolver `partido_do_deputado` -/

/-- The `ultimoStatus` object of a legislator payload. -/
structure UltimoStatus where
  siglaPartido : Option String
  deriving DecidableEq, Repr

/-- The `dados` object of `/deputados/{id}`. -/
structure DadosDep where
  ultimoStatus : Option UltimoStatus
  deriving DecidableEq, Repr

/-- The parsed JSON of `/deputados/{id}`. -/
structure DepJs where
  dados : Option DadosDep
  deriving DecidableEq, Repr

/-- `partido_do_deputado(id)`: one `safe_get`, `""` on failure, then
`dados.get("ultimoStatus", {})` … `(ultimo.get("siglaPartido") or "").upper()`:
empty string whenever any nesting level is missing, else the party code
uppercased. -/
def partido_do_deputado (dep : Int → Option DepJs) (id_deputado : Int) : String :=
  match dep id_deputado with
  | none => ""
  | some js =>
    match (js.dados.bind (fun d => d.ultimoStatus)).bind (fun u => u.siglaPartido) with
    | none => ""
    | some s => pyUpper s

/-! ## Aggregator `contagem_por_partido` -/

/-- `a.get("idDeputado") or (a.get("autor") or {}).get("id")`: the
legislator id resolved from the two alternate payload locations, with
Python `or` semantics (a falsy `idDeputado`, i.e. absent, null or 0,
falls through to the nested lookup). -/
def resolvedId (a : Autor) : Option Int :=
  orFalsyInt a.idDeputado (a.autor.bind (fun o => o.id))

/-- The body of the inner author loop for one author reference: `some p`
when the reference is a parliamentary author with a truthy resolved
legislator id whose party code resolves non-empty (then `p` is appended to
`partidos`), `none` when the reference contributes nothing. -/
def contribAutor (dep : Int → Option DepJs) (a : Autor) : Option String :=
  if pyStartsWith (pyLower (a.tipoAutor.getD "")) "parlamentar" then
    let idep := resolvedId a
    if truthyOptInt idep then
      let p := partido_do_deputado dep (idep.getD 0)
      if p ≠ "" then some p else none
    else none
  else none

/-- The identifier truncation of `contagem_por_partido`: all ids when
`usar_todos`, else the first 800. -/
def selectIds (ids : List Int) (usar_todos : Bool) : List Int :=
  if usar_todos then ids else ids.take 800

/-- The `partidos` list built by the two nested loops of
`contagem_por_partido` over an already-truncated id list. -/
def partidosList (autores : Int → Option (List Autor)) (dep : Int → Option DepJs)
    (ids : List Int) : List String :=
  ids.flatMap (fun pid => (autores_por_proposicao autores pid).filterMap (contribAutor dep))

/-- Stable descending insertion by count (`sort_values("autores",
ascending=False)` on top of `value_counts`, which is already
count-descending; ties keep their relative order). -/
def insertDesc (p : String × Nat) : List (String × Nat) → List (String × Nat)
  | [] => [p]
  | q :: t => if q.2 < p.2 then p :: q :: t else q :: insertDesc p t

/-- Sort rows by count, descending, stably. -/
def sortCountDesc (l : List (String × Nat)) : List (String × Nat) :=
  l.foldr insertDesc []

/-- `pd.Series(partidos).value_counts()` followed by the descending sort:
one row per distinct party code with its occurrence count. -/
def value_counts (l : List String) : List (String × Nat) :=
  sortCountDesc (l.dedup.map (fun x => (x, l.count x)))

/-- `contagem_por_partido(df_pl, usar_todos)` on the bill id list extracted
from the DataFrame: truncate per `usar_todos`, run the author/party
resolution loops, and tabulate the party counts (empty list for the empty
DataFrame case). -/
def contagem_por_partido (autores : Int → Option (List Autor))
    (dep : Int → Option DepJs) (ids0 : List Int) (usar_todos : Bool) :
    List (String × Nat) :=
  value_counts (partidosList autores dep (selectIds ids0 usar_todos))

/-- Spec 4.5 / C8 vocabulary: an author reference of a bill counts as a
"successfully resolved parliamentary author reference" when it is
parliamentary, has a truthy legislator id, and its party code resolves
non-empty. -/
def isResolvedRef (dep : Int → Option DepJs) (a : Autor) : Bool :=
  pyStartsWith (pyLower (a.tipoAutor.getD "")) "parlamentar"
    && truthyOptInt (resolvedId a)
    && (partido_do_deputado dep ((resolvedId a).getD 0) != "")

/-- Sum of the per-party counts of a tally. -/
def sumCounts (l : List (String × Nat)) : Nat :=
  (l.map (fun p => p.2)).sum

/-! ## Concrete oracles for the end-to-end scenarios -/

/-- Bill 101's single author: parliamentary, legislator id 55 in the
top-level field. -/
def autor101 : Autor := ⟨some "Parlamentar", some 55, none⟩

/-- Bill 102's single author: non-parliamentary. -/
def autor102 : Autor := ⟨some "Órgão do Poder Executivo", none, none⟩

/-- Author oracle of the end-to-end scenario of spec §8. -/
def autoresC1 : Int → Option (List Autor) := fun pid =>
  if pid = 101 then some [autor101]
  else if pid = 102 then some [autor102]
  else none

/-- Deputy oracle of the end-to-end scenario: legislator 55 carries the
lowercase party code "pt". -/
def depC1 : Int → Option DepJs := fun i =>
  if i = 55 then some ⟨some ⟨some ⟨some "pt"⟩⟩⟩ else none

/-- A 429 response whose `Retry-After` header holds an HTTP-date, the
alternative form RFC 9110 permits, which `int(...)` cannot parse. -/
def world429date : Nat → GetOutcome Unit := fun _ =>
  .resp ⟨429, some "Wed, 21 Oct 2015 07:28:00 GMT", some ()⟩

/-! ## Helper lemmas -/

theorem mem_insertDesc (p q : String × Nat) (l : List (String × Nat)) :
    p ∈ insertDesc q l ↔ p = q ∨ p ∈ l := by
  induction l with
  | nil => simp [insertDesc]
  | cons r t ih =>
    by_cases h : r.2 < q.2
    · simp [insertDesc, h]
    · simp [insertDesc, h, ih]
      tauto

theorem mem_sortCountDesc (p : String × Nat) (l : List (String × Nat)) :
    p ∈ sortCountDesc l ↔ p ∈ l := by
  induction l with
  | nil => simp [sortCountDesc]
  | cons q t ih =>
    simp only [sortCountDesc, List.foldr_cons] at ih ⊢
    rw [mem_insertDesc, ih, List.mem_cons]

theorem sumCounts_insertDesc (p : String × Nat) (l : List (String × Nat)) :
    sumCounts (insertDesc p l) = p.2 + sumCounts l := by
  induction l with
  | nil => simp [insertDesc, sumCounts]
  | cons q t ih =>
    by_cases h : q.2 < p.2
    · simp [insertDesc, h, sumCounts]
    · simp only [insertDesc, h, if_false]
      simp only [sumCounts, List.map_cons, List.sum_cons] at ih ⊢
      omega

theorem sumCounts_sortCountDesc (l : List (String × Nat)) :
    sumCounts (sortCountDesc l) = sumCounts l := by
  induction l with
  | nil => rfl
  | cons p t ih =>
    simp only [sortCountDesc, List.foldr_cons] at ih ⊢
    rw [sumCounts_insertDesc]
    simp only [sumCounts, List.map_cons, List.sum_cons] at ih ⊢
    omega

theorem sumCounts_value_counts (l : List String) :
    sumCounts (value_counts l) = l.length := by
  rw [value_counts, sumCounts_sortCountDesc]
  have h : sumCounts (l.dedup.map fun x => (x, l.count x))
      = (l.dedup.map fun x => l.count x).sum := by
    simp only [sumCounts, List.map_map]
    rfl
  rw [h, List.sum_map_count_dedup_eq_length]

theorem contrib_isSome (dep : Int → Option DepJs) (a : Autor) :
    (contribAutor dep a).isSome = isResolvedRef dep a := by
  unfold contribAutor isResolvedRef
  by_cases h1 : pyStartsWith (pyLower (a.tipoAutor.getD "")) "parlamentar"
  · by_cases h2 : truthyOptInt (resolvedId a)
    · by_cases h3 : partido_do_deputado dep ((resolvedId a).getD 0) = ""
      · simp [h1, h2, h3]
      · simp [h1, h2, h3]
    · simp [h1, h2]
  · simp [h1]

theorem length_filterMap_contrib (dep : Int → Option DepJs) (l : List Autor) :
    (l.filterMap (contribAutor dep)).length = (l.filter (isResolvedRef dep)).length := by
  induction l with
  | nil => rfl
  | cons a t ih =>
    rcases h : contribAutor dep a with _ | p
    · have hr : isResolvedRef dep a = false := by
        rw [← contrib_isSome, h]; rfl
      simp [List.filterMap_cons, List.filter_cons, h, hr, ih]
    · have hr : isResolvedRef dep a = true := by
        rw [← contrib_isSome, h]; rfl
      simp [List.filterMap_cons, List.filter_cons, h, hr, ih]

theorem partidosList_length (autores : Int → Option (List Autor))
    (dep : Int → Option DepJs) (ids : List Int) :
    (partidosList autores dep ids).length
      = (ids.flatMap fun pid =>
          (autores_por_proposicao autores pid).filter (isResolvedRef dep)).length := by
  induction ids with
  | nil => rfl
  | cons pid t ih =>
    simp only [partidosList, List.flatMap_cons, List.length_append] at ih ⊢
    rw [length_filterMap_contrib, ih]

theorem partidosList_congr (autores autores2 : Int → Option (List Autor))
    (dep : Int → Option DepJs) (ids : List Int)
    (h : ∀ pid ∈ ids, autores pid = autores2 pid) :
    partidosList autores dep ids = partidosList autores2 dep ids := by
  induction ids with
  | nil => rfl
  | cons pid t ih =>
    simp only [partidosList, List.flatMap_cons] at ih ⊢
    rw [autores_por_proposicao, autores_por_proposicao,
      h pid (List.mem_cons_self pid t),
      ih (fun q hq => h q (List.mem_cons_of_mem pid hq))]

/-- A 429 response with no `Retry-After` header, followed by a success. -/
def world429retry : Nat → GetOutcome Unit := fun n =>
  if n = 0 then .resp ⟨429, none, some ()⟩ else .resp ⟨200, none, some ()⟩

/-- A plain 500 response. -/
def world500 : Nat → GetOutcome Unit := fun _ => .resp ⟨500, none, some ()⟩

/-- A connection-level failure on every attempt. -/
def worldRaised : Nat → GetOutcome Unit := fun _ => .raised "connection reset"

theorem finishResp_httpError {α : Type} (r : HttpResp α) (s : Nat)
    (h : finishResp r = .error (.httpError s)) : r.status = s := by
  unfold finishResp at h
  by_cases hb : 400 ≤ r.status ∧ r.status < 600
  · simp only [hb, if_true] at h
    cases h
    rfl
  · simp only [hb, if_false] at h
    cases hbody : r.body with
    | none => rw [hbody] at h; cases h
    | some j => rw [hbody] at h; cases h

theorem tryBody_httpError {α : Type} (world : Nat → GetOutcome α) (s : Nat)
    (h : (tryBody world).1 = .error (.httpError s)) :
    ∃ r, (tryBody world).2.1 = some r ∧ r.status = s := by
  unfold tryBody at h ⊢
  cases h0 : world 0 with
  | raised m => simp [h0] at h
  | resp r0 =>
    simp only [h0] at h ⊢
    by_cases h429 : r0.status = 429
    · simp only [h429, if_true] at h ⊢
      cases hp : pyIntOfString (r0.retryAfter.getD "2") with
      | none => simp [hp] at h
      | some w =>
        simp only [hp] at h ⊢
        by_cases hw : w < 0
        · simp [hw] at h
        · simp only [hw, if_false] at h ⊢
          cases h1 : world 1 with
          | raised m => simp [h1] at h
          | resp r1 =>
            simp only [h1] at h ⊢
            exact ⟨r1, rfl, finishResp_httpError r1 s h⟩
    · simp only [h429, if_false] at h ⊢
      exact ⟨r0, rfl, finishResp_httpError r0 s h⟩

theorem safe_get_sleeps_gets {α : Type} (world : Nat → GetOutcome α) (url : String) :
    (safe_get world url).sleeps = (tryBody world).2.2.1
    ∧ (safe_get world url).getsIssued = (tryBody world).2.2.2 := by
  rcases ht : tryBody world with ⟨res, rv, sl, g⟩
  cases res with
  | ok j => simp [safe_get, ht]
  | error e =>
    cases e with
    | httpError s => cases rv <;> simp [safe_get, ht]
    | valueError => simp [safe_get, ht]
    | jsonError => simp [safe_get, ht]
    | requestExc m => simp [safe_get, ht]
    | nameError => simp [safe_get, ht]

/-- A full page: one record and a "next" link. -/
def pageFull : Page := ⟨[⟨some 1, none⟩], [("next", "u")]⟩

/-- A final page: no records, no "next" link. -/
def pageLast : Page := ⟨[], []⟩

/-- An API with 2 full pages followed by a page lacking a "next" link. -/
def oW : Nat → Option Page := fun p =>
  if p ≤ 2 then some pageFull else some pageLast

theorem collectYear_reqs_consecutive (o : Nat → Option Page) :
    ∀ (fuel p : Nat), ∃ k, (collectYear o fuel p).1 = List.range' p k := by
  intro fuel
  induction fuel with
  | zero => intro p; exact ⟨0, rfl⟩
  | succ f ih =>
    intro p
    unfold collectYear
    cases hop : o p with
    | none => exact ⟨1, by simp [List.range'_succ]⟩
    | some pg =>
      by_cases hc : hasNext pg ∧ pg.dados ≠ []
      · rcases ih (p + 1) with ⟨k, hk⟩
        refine ⟨k + 1, ?_⟩
        simp only [hop]
        rw [if_pos hc, List.range'_succ]
        exact congrArg (fun l => p :: l) hk
      · refine ⟨1, ?_⟩
        simp only [hop]
        rw [if_neg hc]
        simp [List.range'_succ]

theorem collectYear_next_requested (o : Nat → Option Page) :
    ∀ (fuel p m : Nat), (m + 1) ∈ (collectYear o fuel p).1 →
      m + 1 = p ∨ ∃ pg, o m = some pg ∧ hasNext pg = true ∧ pg.dados ≠ [] := by
  intro fuel
  induction fuel with
  | zero => intro p m h; simp [collectYear] at h
  | succ f ih =>
    intro p m h
    unfold collectYear at h
    cases hop : o p with
    | none =>
      simp only [hop] at h
      simp at h
      exact Or.inl h
    | some pg =>
      by_cases hc : hasNext pg ∧ pg.dados ≠ []
      · simp only [hop] at h
        rw [if_pos hc] at h
        rcases List.mem_cons.mp h with h1 | h2
        · exact Or.inl h1
        · rcases ih (p + 1) m h2 with h3 | h4
          · right
            have hmp : m = p := by omega
            subst hmp
            exact ⟨pg, hop, hc.1, hc.2⟩
          · exact Or.inr h4
      · simp only [hop] at h
        rw [if_neg hc] at h
        simp at h
        exact Or.inl h

theorem collectYear_recs_retained (o : Nat → Option Page) :
    ∀ (fuel p : Nat),
      (collectYear o fuel p).2
        = ((collectYear o fuel p).1.filterMap o).flatMap fun pg => pg.dados := by
  intro fuel
  induction fuel with
  | zero => intro p; rfl
  | succ f ih =>
    intro p
    unfold collectYear
    cases hop : o p with
    | none => simp [hop]
    | some pg =>
      by_cases hc : hasNext pg ∧ pg.dados ≠ []
      · simp only [hop]
        rw [if_pos hc]
        simp [List.filterMap_cons, hop, ih (p + 1)]
      · simp only [hop]
        rw [if_neg hc]
        simp [List.filterMap_cons, hop]

theorem buscar_foldl_aux (oracle : Int → Nat → Option Page) (fuel : Nat)
    (ys : List Int) :
    ∀ (A : List (Int × Nat)) (B : List Rec),
      ys.foldl
        (fun acc ano =>
          let run := collectYear (oracle ano) fuel 1
          (acc.1 ++ run.1.map (fun p => (ano, p)), acc.2 ++ run.2))
        (A, B)
      = (A ++ ys.flatMap fun ano =>
            (collectYear (oracle ano) fuel 1).1.map fun p => (ano, p),
          B ++ ys.flatMap fun ano => (collectYear (oracle ano) fuel 1).2) := by
  induction ys with
  | nil => intro A B; simp
  | cons y t ih =>
    intro A B
    simp only [List.foldl_cons, List.flatMap_cons]
    rw [ih]
    simp [List.append_assoc]

theorem collectYear_scenario_len (o : Nat → Option Page) :
    ∀ (j p fuel : Nat),
      (∀ q, p ≤ q → q < p + j →
        ∃ pg, o q = some pg ∧ hasNext pg = true ∧ pg.dados ≠ []) →
      (∃ pgl, o (p + j) = some pgl ∧ hasNext pgl = false) →
      j + 1 ≤ fuel →
      (collectYear o fuel p).1.length = j + 1 := by
  intro j
  induction j with
  | zero =>
    intro p fuel hgood hlast hfuel
    rcases hlast with ⟨pgl, hol, hnl⟩
    cases fuel with
    | zero => omega
    | succ f =>
      unfold collectYear
      rw [Nat.add_zero] at hol
      have hc : ¬ (hasNext pgl ∧ pgl.dados ≠ []) := by simp [hnl]
      simp [hol, hc]
  | succ j ih =>
    intro p fuel hgood hlast hfuel
    cases fuel with
    | zero => omega
    | succ f =>
      rcases hgood p (Nat.le_refl p) (by omega) with ⟨pg, hop, hn, hd⟩
      unfold collectYear
      have hc : hasNext pg ∧ pg.dados ≠ [] := ⟨hn, hd⟩
      simp only [hop]
      rw [if_pos hc]
      simp only [List.length_cons]
      have hlast2 : ∃ pgl, o (p + 1 + j) = some pgl ∧ hasNext pgl = false := by
        rcases hlast with ⟨pgl, h1, h2⟩
        refine ⟨pgl, ?_, h2⟩
        rw [show p + 1 + j = p + (j + 1) by omega]
        exact h1
      have := ih (p + 1) f
        (fun q h1 h2 => hgood q (by omega) (by omega)) hlast2 (by omega)
      omega

/-! ## Claim theorems -/

/-- C6: with `usar_todos = false`, `contagem_por_partido` processes exactly
the first `min 800 n` bill identifiers in input order — its outcome depends
only on the author data of those identifiers — and with 1000 identifiers
that is exactly 800; with `usar_todos = true` it processes all of them. -/
theorem contagem_sampling_bound (ids : List Int) :
    selectIds ids false = ids.take 800
    ∧ (selectIds ids false).length = min 800 ids.length
    ∧ selectIds ids true = ids
    ∧ (∀ (autores autores2 : Int → Option (List Autor)) (dep : Int → Option DepJs),
        (∀ pid ∈ ids.take 800, autores pid = autores2 pid) →
        contagem_por_partido autores dep ids false
          = contagem_por_partido autores2 dep ids false)
    ∧ (selectIds ((List.range 1000).map Int.ofNat) false).length = 800 := by
  refine ⟨rfl, ?_, rfl, ?_, ?_⟩
  · simp [selectIds]
  · intro autores autores2 dep h
    unfold contagem_por_partido
    rw [partidosList_congr autores autores2 dep (selectIds ids false) (by simpa [selectIds] using h)]
  · simp [selectIds]

/-- C6 witness at a concrete input. -/
theorem contagem_sampling_bound_witness :
    (selectIds [5, 6, 7] false).length = min 800 3
    ∧ contagem_por_partido autoresC1 depC1 [5, 6, 7] false
        = contagem_por_partido autoresC1 depC1 [5, 6, 7] false := by
  exact ⟨(contagem_sampling_bound [5, 6, 7]).2.1,
    (contagem_sampling_bound [5, 6, 7]).2.2.2.1 autoresC1 autoresC1 depC1
      (fun pid _ => rfl)⟩

/-- C7: `partido_do_deputado` returns the empty string when the fetch
fails or when the nested `dados → ultimoStatus → siglaPartido` chain is
broken at any level, and the party code uppercased when the field
resolves; it always returns a string (no absence, no exception). -/
theorem partido_resolution (dep : Int → Option DepJs) (i : Int) :
    (dep i = none → partido_do_deputado dep i = "")
    ∧ (∀ js, dep i = some js →
        (js.dados.bind fun d => d.ultimoStatus).bind (fun u => u.siglaPartido) = none →
        partido_do_deputado dep i = "")
    ∧ (∀ js s, dep i = some js →
        (js.dados.bind fun d => d.ultimoStatus).bind (fun u => u.siglaPartido) = some s →
        partido_do_deputado dep i = pyUpper s) := by
  refine ⟨?_, ?_, ?_⟩
  · intro h; simp [partido_do_deputado, h]
  · intro js hjs hs; simp [partido_do_deputado, hjs, hs]
  · intro js s hjs hs; simp [partido_do_deputado, hjs, hs]

/-- C7 witness: failed fetch, broken chain, and a mixed-case code. -/
theorem partido_resolution_witness :
    partido_do_deputado depC1 7 = ""
    ∧ partido_do_deputado (fun _ => some ⟨none⟩) 1 = ""
    ∧ partido_do_deputado depC1 55 = pyUpper "pt" := by
  exact ⟨(partido_resolution depC1 7).1 rfl,
    (partido_resolution (fun _ => some ⟨none⟩) 1).2.1 ⟨none⟩ rfl rfl,
    (partido_resolution depC1 55).2.2 ⟨some ⟨some ⟨some "pt"⟩⟩⟩ "pt" rfl rfl⟩

/-- C9: when the top-level `idDeputado` is falsy (absent, null or 0), the
legislator id falls back to the nested `autor.id`; when both locations are
falsy the reference triggers no party lookup (the outcome is independent
of the deputy oracle) and contributes nothing, and a whole dataset of such
references yields an empty tally. -/
theorem fallback_id_and_falsy_skip :
    (∀ a : Autor, truthyOptInt a.idDeputado = false →
        resolvedId a = a.autor.bind fun o => o.id)
    ∧ (∀ (dep dep2 : Int → Option DepJs) (a : Autor),
        truthyOptInt (resolvedId a) = false →
        contribAutor dep a = none ∧ contribAutor dep a = contribAutor dep2 a)
    ∧ (∀ (dep : Int → Option DepJs) (autores : Int → Option (List Autor)) (ids : List Int),
        (∀ pid ∈ ids, ∀ a ∈ autores_por_proposicao autores pid,
          truthyOptInt (resolvedId a) = false) →
        contagem_por_partido autores dep ids true = []) := by
  have hnone : ∀ (dep : Int → Option DepJs) (a : Autor),
      truthyOptInt (resolvedId a) = false → contribAutor dep a = none := by
    intro dep a h
    unfold contribAutor
    by_cases h1 : pyStartsWith (pyLower (a.tipoAutor.getD "")) "parlamentar"
    · simp [h1, h]
    · simp [h1]
  refine ⟨?_, ?_, ?_⟩
  · intro a h; simp [resolvedId, orFalsyInt, h]
  · intro dep dep2 a h
    rw [hnone dep a h, hnone dep2 a h]
    exact ⟨rfl, rfl⟩
  · intro dep autores ids h
    have hp : partidosList autores dep ids = [] := by
      induction ids with
      | nil => rfl
      | cons pid t ih =>
        simp only [partidosList, List.flatMap_cons] at ih ⊢
        rw [List.filterMap_eq_nil_iff.mpr
            (fun a ha => hnone dep a (h pid (List.mem_cons_self pid t) a ha)),
          ih (fun q hq a ha => h q (List.mem_cons_of_mem pid hq) a ha)]
        rfl
    simp [contagem_por_partido, selectIds, hp, value_counts, sortCountDesc]

/-- C9 witness: an author with `idDeputado = 0` and `autor.id = 0`. -/
theorem fallback_id_and_falsy_skip_witness :
    resolvedId ⟨some "Parlamentar", some 0, some ⟨some 0⟩⟩ = some 0
    ∧ contribAutor depC1 ⟨some "Parlamentar", some 0, some ⟨some 0⟩⟩ = none
    ∧ contagem_por_partido (fun _ => some [⟨some "Parlamentar", some 0, some ⟨some 0⟩⟩])
        depC1 [101] true = [] := by
  refine ⟨?_, ?_, ?_⟩
  · exact (fallback_id_and_falsy_skip.1 ⟨some "Parlamentar", some 0, some ⟨some 0⟩⟩ rfl).trans rfl
  · exact (fallback_id_and_falsy_skip.2.1 depC1 depC1
      ⟨some "Parlamentar", some 0, some ⟨some 0⟩⟩ rfl).1
  · exact fallback_id_and_falsy_skip.2.2 depC1
      (fun _ => some [⟨some "Parlamentar", some 0, some ⟨some 0⟩⟩]) [101]
      (fun pid _ a ha => by
        simp only [autores_por_proposicao, List.mem_singleton] at ha
        rw [ha]
        decide)

/-- C1: the tally of `contagem_por_partido` takes contributions only from
author references whose `tipoAutor`, lowercased, starts with
"parlamentar"; the legislator id is read from the top-level `idDeputado`
when that is truthy and from the nested `autor.id` otherwise; and on the
end-to-end scenario (bill 101 with one parliamentary author, legislator
55, party "pt"; bill 102 with one non-parliamentary author) the output is
exactly the single row ("PT", 1). -/
theorem contagem_parlamentar_tally :
    (∀ (dep : Int → Option DepJs) (a : Autor),
        pyStartsWith (pyLower (a.tipoAutor.getD "")) "parlamentar" = false →
        contribAutor dep a = none)
    ∧ (∀ a : Autor, truthyOptInt a.idDeputado = true → resolvedId a = a.idDeputado)
    ∧ (∀ a : Autor, truthyOptInt a.idDeputado = false →
        resolvedId a = a.autor.bind fun o => o.id)
    ∧ contagem_por_partido autoresC1 depC1 [101, 102] false = [("PT", 1)] := by
  refine ⟨?_, ?_, ?_, by decide⟩
  · intro dep a h
    simp [contribAutor, h]
  · intro a h
    simp [resolvedId, orFalsyInt, h]
  · intro a h
    simp [resolvedId, orFalsyInt, h]

/-- C1 witness: the general conjuncts instantiated on the scenario's two
authors. -/
theorem contagem_parlamentar_tally_witness :
    contribAutor depC1 autor102 = none
    ∧ resolvedId autor101 = autor101.idDeputado
    ∧ resolvedId autor102 = autor102.autor.bind (fun o => o.id) := by
  exact ⟨contagem_parlamentar_tally.1 depC1 autor102 (by decide),
    contagem_parlamentar_tally.2.1 autor101 (by decide),
    contagem_parlamentar_tally.2.2.1 autor102 (by decide)⟩

/-- C8: every count in the output of `contagem_por_partido` is positive
(hence non-negative, the counts being naturals), and the counts sum to
the number of author references — counted once per bill-author pairing —
that are parliamentary with a truthy legislator id and a non-empty
resolved party code. -/
theorem contagem_counts_sum (autores : Int → Option (List Autor))
    (dep : Int → Option DepJs) (ids0 : List Int) (usar_todos : Bool) :
    sumCounts (contagem_por_partido autores dep ids0 usar_todos)
      = ((selectIds ids0 usar_todos).flatMap fun pid =>
          (autores_por_proposicao autores pid).filter (isResolvedRef dep)).length
    ∧ ∀ pr ∈ contagem_por_partido autores dep ids0 usar_todos, 0 < pr.2 := by
  constructor
  · rw [contagem_por_partido, sumCounts_value_counts]
    have h : ∀ l : List Int, (partidosList autores dep l).length
        = (l.flatMap fun pid =>
            (autores_por_proposicao autores pid).filter (isResolvedRef dep)).length := by
      intro l
      exact partidosList_length autores dep l
    exact h (selectIds ids0 usar_todos)
  · intro pr hpr
    rw [contagem_por_partido, value_counts] at hpr
    rw [mem_sortCountDesc] at hpr
    rcases List.mem_map.mp hpr with ⟨x, hx, hpx⟩
    rw [← hpx]
    exact List.count_pos_iff.mpr (List.mem_dedup.mp hx)

/-- C8 witness: the sum identity and positivity on the end-to-end
scenario. -/
theorem contagem_counts_sum_witness :
    sumCounts (contagem_por_partido autoresC1 depC1 [101, 102] false)
      = (([101, 102].flatMap fun pid =>
          (autores_por_proposicao autoresC1 pid).filter (isResolvedRef depC1)).length)
    ∧ 0 < (("PT", 1) : String × Nat).2 := by
  refine ⟨?_, ?_⟩
  · have h := (contagem_counts_sum autoresC1 depC1 [101, 102] false).1
    simpa [selectIds] using h
  · exact (contagem_counts_sum autoresC1 depC1 [101, 102] false).2 ("PT", 1) (by decide)

/-- C5: per year the collector requests consecutive pages starting at 1;
page n+1 is requested only when page n succeeded with a "next" link and a
non-empty `dados`; the records kept are exactly the `dados` of the
successfully fetched requested pages (so a failed page loses nothing
already collected, and years accumulate independently); and against an
API serving N full pages then a page lacking a "next" link it issues
exactly N+1 page requests for the year. -/
theorem buscar_pagination :
    (∀ (o : Nat → Option Page) (fuel : Nat),
        ∃ k, (collectYear o fuel 1).1 = List.range' 1 k)
    ∧ (∀ (o : Nat → Option Page) (fuel n : Nat), 1 ≤ n →
        (n + 1) ∈ (collectYear o fuel 1).1 →
        ∃ pg, o n = some pg ∧ hasNext pg = true ∧ pg.dados ≠ [])
    ∧ (∀ (o : Nat → Option Page) (fuel p : Nat),
        (collectYear o fuel p).2
          = ((collectYear o fuel p).1.filterMap o).flatMap fun pg => pg.dados)
    ∧ (∀ (oracle : Int → Nat → Option Page) (fuel : Nat) (ano_ini ano_fim : Int),
        (buscar_pls_periodo oracle fuel ano_ini ano_fim).2
          = (yearsRange ano_ini ano_fim).flatMap fun ano =>
              (collectYear (oracle ano) fuel 1).2)
    ∧ (∀ (o : Nat → Option Page) (N fuel : Nat),
        (∀ q, 1 ≤ q → q ≤ N →
          ∃ pg, o q = some pg ∧ hasNext pg = true ∧ pg.dados ≠ []) →
        (∃ pgl, o (N + 1) = some pgl ∧ hasNext pgl = false) →
        N + 1 ≤ fuel →
        (collectYear o fuel 1).1.length = N + 1) := by
  refine ⟨?_, ?_, ?_, ?_, ?_⟩
  · intro o fuel
    exact collectYear_reqs_consecutive o fuel 1
  · intro o fuel n hn h
    rcases collectYear_next_requested o fuel 1 n h with h1 | h2
    · omega
    · exact h2
  · intro o fuel p
    exact collectYear_recs_retained o fuel p
  · intro oracle fuel ano_ini ano_fim
    unfold buscar_pls_periodo
    rw [buscar_foldl_aux]
    simp
  · intro o N fuel hgood hlast hfuel
    refine collectYear_scenario_len o N 1 fuel
      (fun q h1 h2 => hgood q h1 (by omega)) ?_ hfuel
    rcases hlast with ⟨pgl, h1, h2⟩
    refine ⟨pgl, ?_, h2⟩
    rw [show 1 + N = N + 1 by omega]
    exact h1

/-- C5 witness: an API with 2 full pages then a last page without "next"
gives 3 consecutive page requests and the flattened records. -/
theorem buscar_pagination_witness :
    (∃ k, (collectYear oW 5 1).1 = List.range' 1 k)
    ∧ (∃ pg, oW 1 = some pg ∧ hasNext pg = true ∧ pg.dados ≠ [])
    ∧ (collectYear oW 5 1).2
        = (((collectYear oW 5 1).1.filterMap oW).flatMap fun pg => pg.dados)
    ∧ (collectYear oW 5 1).1.length = 2 + 1 := by
  refine ⟨buscar_pagination.1 oW 5, ?_, buscar_pagination.2.2.1 oW 5 1, ?_⟩
  · exact buscar_pagination.2.1 oW 5 1 (by decide) (by decide)
  · refine buscar_pagination.2.2.2.2 oW 2 5 ?_ ?_ (by decide)
    · intro q h1 h2
      refine ⟨pageFull, ?_, by decide, by decide⟩
      simp [oW, h2]
    · exact ⟨pageLast, by decide, by decide⟩

/-- A single-page listing oracle whose one record carries an unparseable
presentation date. -/
def oBadDate : Int → Nat → Option Page := fun _ p =>
  if p = 1 then some ⟨[⟨some 1, some "data-invalida"⟩], []⟩ else none

/-- C2 counterexample: a bill collected with an unparseable presentation
date gets `ano = null` but `ano_mes = "NaT"` — a non-null string, produced
by `astype(str)` on the NaT period — so "both derived fields are null"
fails on it. -/
theorem ano_mes_nat_counterexample :
    (buscar_pls_periodo oBadDate 5 2023 2023).2 = [⟨some 1, some "data-invalida"⟩]
    ∧ anoMesColumn (buscar_pls_periodo oBadDate 5 2023 2023).2 = some [Cell.str "NaT"]
    ∧ anoColumn (buscar_pls_periodo oBadDate 5 2023 2023).2 = some [Cell.null]
    ∧ Cell.str "NaT" ≠ Cell.null := by
  refine ⟨by decide, by decide, by decide, by decide⟩

/-- C2 amended: both derived fields are deterministic functions of the
presentation date; on a missing or unparseable date the `ano` field is
null, while the `ano_mes` field is the literal string "NaT" (not null);
on a parseable date they are the year and the "YYYY-MM" bucket; and the
derived columns of the collected DataFrame are exactly these functions
mapped over the records (when some record carries the date key at all). -/
theorem derived_date_fields (raw : Option String) :
    (pdToDatetime raw = none →
        deriveAno raw = Cell.null ∧ deriveAnoMes raw = Cell.str "NaT")
    ∧ (∀ y m, pdToDatetime raw = some (y, m) →
        deriveAno raw = Cell.int y ∧ deriveAnoMes raw = Cell.str (fmtYM y m))
    ∧ (raw = none → deriveAno raw = Cell.null ∧ deriveAnoMes raw = Cell.str "NaT")
    ∧ (∀ recs : List Rec, (recs.any fun r => r.dataApresentacao.isSome) = true →
        anoColumn recs = some (recs.map fun r => deriveAno r.dataApresentacao)
        ∧ anoMesColumn recs = some (recs.map fun r => deriveAnoMes r.dataApresentacao)) := by
  refine ⟨?_, ?_, ?_, ?_⟩
  · intro h
    simp [deriveAno, deriveAnoMes, h]
  · intro y m h
    simp [deriveAno, deriveAnoMes, h]
  · intro h
    subst h
    simp [deriveAno, deriveAnoMes, pdToDatetime]
  · intro recs h
    simp [anoColumn, anoMesColumn, h]

/-- C2 witness: a parseable date, a missing date, and a one-record
DataFrame. -/
theorem derived_date_fields_witness :
    (deriveAno (some "2023-05-04T18:39") = Cell.int 2023
      ∧ deriveAnoMes (some "2023-05-04T18:39") = Cell.str (fmtYM 2023 5))
    ∧ (deriveAno none = Cell.null ∧ deriveAnoMes none = Cell.str "NaT")
    ∧ anoMesColumn [⟨some 1, some "2023-05-04T18:39"⟩]
        = some ([⟨some 1, some "2023-05-04T18:39"⟩].map
            fun r => deriveAnoMes (Rec.dataApresentacao r)) := by
  refine ⟨?_, ?_, ?_⟩
  · exact (derived_date_fields (some "2023-05-04T18:39")).2.1 2023 5 (by decide)
  · exact (derived_date_fields none).2.2.1 rfl
  · exact ((derived_date_fields none).2.2.2 [⟨some 1, some "2023-05-04T18:39"⟩] (by decide)).2

/-- C4: `safe_get` never lets an exception escape (its result is always a
normal return), a run ending in an HTTP error status yields `None` plus
the warning naming that status and the URL, and a first request that
raises before `resp` is assigned also yields `None` with the generic
warning naming the URL. -/
theorem safe_get_degrades {α : Type} (world : Nat → GetOutcome α) (url : String) :
    (∃ v, (safe_get world url).result = .ok v)
    ∧ (∀ s, (tryBody world).1 = .error (.httpError s) →
        (safe_get world url).result = .ok none
        ∧ (safe_get world url).warnings = [.httpStatus s url])
    ∧ (∀ m, world 0 = .raised m →
        (safe_get world url).result = .ok none
        ∧ (safe_get world url).warnings = [.generic url (.requestExc m)]) := by
  refine ⟨?_, ?_, ?_⟩
  · rcases ht : tryBody world with ⟨res, rv, sl, g⟩
    cases res with
    | ok j => exact ⟨some j, by simp [safe_get, ht]⟩
    | error e =>
      cases e with
      | httpError s =>
        rcases tryBody_httpError world s (by rw [ht]) with ⟨r, hr, _⟩
        rw [ht] at hr
        simp only at hr
        exact ⟨none, by simp [safe_get, ht, hr]⟩
      | valueError => exact ⟨none, by simp [safe_get, ht]⟩
      | jsonError => exact ⟨none, by simp [safe_get, ht]⟩
      | requestExc m => exact ⟨none, by simp [safe_get, ht]⟩
      | nameError => exact ⟨none, by simp [safe_get, ht]⟩
  · intro s hs
    rcases tryBody_httpError world s hs with ⟨r, hr, hstat⟩
    rcases ht : tryBody world with ⟨res, rv, sl, g⟩
    rw [ht] at hs hr
    simp only at hs hr
    subst hs hr hstat
    simp [safe_get, ht]
  · intro m h0
    have ht : tryBody world = (.error (.requestExc m), none, [], 1) := by
      unfold tryBody
      rw [h0]
    simp [safe_get, ht]

/-- C4 witness: a 500 status and a connection-level failure, each
degrading to `None` with its warning. -/
theorem safe_get_degrades_witness :
    (safe_get world500 "u").result = .ok none
    ∧ (safe_get world500 "u").warnings = [.httpStatus 500 "u"]
    ∧ (safe_get worldRaised "u").result = .ok none
    ∧ (safe_get worldRaised "u").warnings
        = [.generic "u" (.requestExc "connection reset")] := by
  refine ⟨?_, ?_, ?_, ?_⟩
  · exact ((safe_get_degrades world500 "u").2.1 500 rfl).1
  · exact ((safe_get_degrades world500 "u").2.1 500 rfl).2
  · exact ((safe_get_degrades worldRaised "u").2.2 "connection reset" rfl).1
  · exact ((safe_get_degrades worldRaised "u").2.2 "connection reset" rfl).2

/-- C3 counterexample: a call that receives a 429 whose `Retry-After`
holds an HTTP-date performs no sleep and no manual retry at all — the
claim's "sleeps that duration, then issues exactly one additional manual
retry" fails on it. -/
theorem retry429_counterexample :
    world429date 0 = .resp ⟨429, some "Wed, 21 Oct 2015 07:28:00 GMT", some ()⟩
    ∧ (safe_get world429date "url").sleeps = []
    ∧ (safe_get world429date "url").getsIssued ≠ 2 := by
  exact ⟨rfl, rfl, by decide⟩

/-- C3 amended: when `safe_get` receives a 429 on its first request and
the `Retry-After` value (or its default "2") parses as a non-negative
integer, it sleeps exactly that duration and issues exactly one manual
retry (two GETs in total); when that value does not parse as a
non-negative integer — `int(...)` raises, or `time.sleep` rejects the
negative duration — no sleep and no retry happen (one GET only); and no
call ever issues more than one manual retry, i.e. more than two GETs. -/
theorem retry429_single_manual_retry :
    (∀ (α : Type) (world : Nat → GetOutcome α) (url : String) (r0 : HttpResp α) (w : Int),
        world 0 = .resp r0 → r0.status = 429 →
        pyIntOfString (r0.retryAfter.getD "2") = some w → 0 ≤ w →
        (safe_get world url).sleeps = [w] ∧ (safe_get world url).getsIssued = 2)
    ∧ (∀ (α : Type) (world : Nat → GetOutcome α) (url : String) (r0 : HttpResp α),
        world 0 = .resp r0 → r0.status = 429 →
        (∀ w, pyIntOfString (r0.retryAfter.getD "2") = some w → w < 0) →
        (safe_get world url).sleeps = [] ∧ (safe_get world url).getsIssued = 1)
    ∧ (∀ (α : Type) (world : Nat → GetOutcome α) (url : String),
        (safe_get world url).getsIssued ≤ 2) := by
  refine ⟨?_, ?_, ?_⟩
  · intro α world url r0 w h0 h429 hp hw
    have hsl : (tryBody world).2.2.1 = [w] ∧ (tryBody world).2.2.2 = 2 := by
      unfold tryBody
      rw [h0]
      simp only [h429, if_true, hp]
      have hw2 : ¬ w < 0 := by omega
      simp only [hw2, if_false]
      cases h1 : world 1 <;> simp
    rcases safe_get_sleeps_gets world url with ⟨hs, hg⟩
    rw [hs, hg, hsl.1, hsl.2]
    exact ⟨rfl, rfl⟩
  · intro α world url r0 h0 h429 hnp
    have hsl : (tryBody world).2.2.1 = [] ∧ (tryBody world).2.2.2 = 1 := by
      unfold tryBody
      rw [h0]
      simp only [h429, if_true]
      cases hp : pyIntOfString (r0.retryAfter.getD "2") with
      | none => simp [hp]
      | some w =>
        have hw : w < 0 := hnp w hp
        simp only [hp]
        rw [if_pos hw]
        exact ⟨rfl, rfl⟩
    rcases safe_get_sleeps_gets world url with ⟨hs, hg⟩
    rw [hs, hg, hsl.1, hsl.2]
    exact ⟨rfl, rfl⟩
  · intro α world url
    rcases safe_get_sleeps_gets world url with ⟨_, hg⟩
    rw [hg]
    unfold tryBody
    cases h0 : world 0 with
    | raised m => simp
    | resp r0 =>
      by_cases h429 : r0.status = 429
      · simp only [h429, if_true]
        cases hp : pyIntOfString (r0.retryAfter.getD "2") with
        | none => simp
        | some w =>
          by_cases hw : w < 0
          · simp [hw]
          · simp only [hw, if_false]
            cases h1 : world 1 <;> simp
      · simp [h429]

/-- C3 witness: a 429 with no `Retry-After` header sleeps the default 2
seconds and retries exactly once, while a 429 with an HTTP-date header
sleeps not at all and issues a single GET. -/
theorem retry429_single_manual_retry_witness :
    ((safe_get world429retry "u").sleeps = [2]
      ∧ (safe_get world429retry "u").getsIssued = 2)
    ∧ ((safe_get world429date "u").sleeps = []
      ∧ (safe_get world429date "u").getsIssued = 1) := by
  refine ⟨?_, ?_⟩
  · exact retry429_single_manual_retry.1 Unit world429retry "u"
      ⟨429, none, some ()⟩ 2 rfl rfl (by decide) (by decide)
  · refine retry429_single_manual_retry.2.1 Unit world429date "u"
      ⟨429, some "Wed, 21 Oct 2015 07:28:00 GMT", some ()⟩ rfl rfl ?_
    intro w h
    have hn : pyIntOfString "Wed, 21 Oct 2015 07:28:00 GMT" = none := by decide
    have h2 : (none : Option Int) = some w := by
      rw [← hn]
      exact h
    cases h2

/-- C10: a 429 response whose `Retry-After` value is an HTTP-date (not
decimal digits) makes `safe_get` fail with the generic warning: `int(...)`
raises `ValueError`, so no sleep happens, no manual retry is issued, and
the caller receives `None`. -/
theorem retry_after_unparseable :
    world429date 0 = .resp ⟨429, some "Wed, 21 Oct 2015 07:28:00 GMT", some ()⟩
    ∧ (safe_get world429date "url").result = .ok none
    ∧ (safe_get world429date "url").warnings = [.generic "url" .valueError]
    ∧ (safe_get world429date "url").sleeps = []
    ∧ (safe_get world429date "url").getsIssued = 1 := by
  refine ⟨rfl, ?_, ?_, ?_, ?_⟩ <;> rfl

end App
